import Mathlib

/-
Verification development for the ygrebnov/testutils repository (Go).

The development shallowly embeds the two packages the specification covers:

* `presets` — the configuration overlay engine: preset bundles, the
  flattening of environment-variable declarations to KEY=VALUE strings
  (`envs.toSlice`), and the field-level override merge
  (`combineContainerOptions`).

* `docker` — the container lifecycle controller: the `container` object,
  `fetchContainerData` (state refresh), `Stop`, `Remove`, `StopRemove`,
  `HasStarted` and `Start` (with its bounded polling loop).

The remote Docker engine is modelled as an oracle (`docker.Engine`) giving
the result of each transport call; every operation additionally threads a
`World` — the chronological list of engine calls and sleeps performed — so
that theorems can speak about which transport operations were issued.
Go's `error` results are modelled as `Option GoError` (`none` = nil) and
panics / fallible conversions as `Except`.
-/

namespace docker

/-- Field set of the Go struct `Options` (client.go): optional attributes of
a container. Go zero values are the defaults: empty strings, nil slices and
a zero timeout. `StartTimeout` is a Go `int`, modelled as `Int`. -/
structure Options where
  Name : String := ""
  Healthcheck : String := ""
  EnvironmentVariables : List String := []
  ExposedPorts : List String := []
  StartTimeout : Int := 0
deriving DecidableEq

end docker

namespace presets

/-- Models the dynamic Go value `any` carried by a preset environment
variable: the source type-switches on `int` and `string` and panics on
every other dynamic type, which the `otherVal` constructor stands for. -/
inductive EnvValue where
  | intVal (v : Int)
  | strVal (v : String)
  | otherVal
deriving DecidableEq

/-- The Go struct `env` (preset environment variable declaration). -/
structure env where
  Name : String
  Value : EnvValue
deriving DecidableEq

/-- The Go slice type `envs`. -/
abbrev envs := List env

/-- Body of the `for i, el := range e` loop of `envs.toSlice`: each value is
rendered by the type switch (`strconv.Itoa` for int — base-10 decimal via
`toString` on `Int` — the string itself for string), the first value of any
other dynamic type panics (modelled as `Except.error`), and element `i` of
the result is `fmt.Sprintf("%s=%s", el.Name, stringVal)`. -/
def envs.toSliceLoop : envs → Except String (List String)
  | [] => Except.ok []
  | el :: rest =>
    match (match el.Value with
           | EnvValue.intVal v => Except.ok (toString v)
           | EnvValue.strVal v => Except.ok v
           | EnvValue.otherVal => Except.error "unhandled preset.env value type") with
    | Except.error m => Except.error m
    | Except.ok stringVal =>
      match envs.toSliceLoop rest with
      | Except.error m => Except.error m
      | Except.ok tail => Except.ok ((el.Name ++ "=" ++ stringVal) :: tail)

/-- The Go method `envs.toSlice`: returns nil for an empty list, otherwise
the flattened KEY=VALUE slice (panic on an unhandled value type). -/
def envs.toSlice (e : envs) : Except String (List String) :=
  if e.length = 0 then Except.ok []
  else envs.toSliceLoop e

/-- The Go struct `presetContainer`. -/
structure presetContainer where
  Name : String := ""
  Env : envs := []
  Ports : List String := []
  Healthcheck : String := ""
deriving DecidableEq

/-- The Go struct `presetImage`. -/
structure presetImage where
  Name : String := ""
deriving DecidableEq

/-- The Go struct `defaultContainerPreset`. -/
structure defaultContainerPreset where
  Container : presetContainer := {}
  Image : presetImage := {}
deriving DecidableEq

/-- The Go method `getPresetContainerOptions`: builds a `docker.Options`
from the preset bundle; flattening the environment list may panic
(propagated as `Except.error`). `StartTimeout` is left at its Go zero
value. -/
def getPresetContainerOptions (p : defaultContainerPreset) : Except String docker.Options :=
  match envs.toSlice p.Container.Env with
  | Except.error m => Except.error m
  | Except.ok env =>
    Except.ok
      { Name := p.Container.Name
        Healthcheck := p.Container.Healthcheck
        EnvironmentVariables := env
        ExposedPorts := p.Container.Ports
        StartTimeout := 0 }

/-- The Go method `combineContainerOptions` (presets, part_003 lines
121-148 / database_preset.go lines 153-171): starts from the preset's base
options; a nil override returns the base unchanged; otherwise each of the
five fields is replaced by the override's value exactly when that value is
present (non-empty string, non-empty list, positive timeout). -/
def combineContainerOptions (p : defaultContainerPreset) (options : Option docker.Options) :
    Except String docker.Options :=
  match getPresetContainerOptions p with
  | Except.error m => Except.error m
  | Except.ok combinedOptions =>
    match options with
    | none => Except.ok combinedOptions
    | some options =>
      let c1 := if options.Name ≠ "" then { combinedOptions with Name := options.Name }
                else combinedOptions
      let c2 := if options.EnvironmentVariables.length > 0 then
                  { c1 with EnvironmentVariables := options.EnvironmentVariables }
                else c1
      let c3 := if options.ExposedPorts.length > 0 then
                  { c2 with ExposedPorts := options.ExposedPorts }
                else c2
      let c4 := if options.Healthcheck ≠ "" then { c3 with Healthcheck := options.Healthcheck }
                else c3
      let c5 := if options.StartTimeout > 0 then { c4 with StartTimeout := options.StartTimeout }
                else c4
      Except.ok c5

/-- Specification-side rendering of one environment value: the decimal text
of an integer, a string as-is, nothing for an unhandled type. -/
def envValueText : EnvValue → Option String
  | EnvValue.intVal v => some (toString v)
  | EnvValue.strVal v => some v
  | EnvValue.otherVal => none

end presets

section presetChecks

example : presets.envs.toSlice [⟨"PGPORT", presets.EnvValue.intVal 5432⟩] =
    Except.ok ["PGPORT=5432"] := by rfl

example : presets.envs.toSlice
    [⟨"A", presets.EnvValue.strVal "x"⟩, ⟨"B", presets.EnvValue.otherVal⟩] =
    Except.error "unhandled preset.env value type" := by rfl

end presetChecks

namespace docker

/-- The package-private error values of the docker package
(client.go), plus `transport` for an arbitrary error coming back from the
Docker transport (`ContainerList`, `ContainerStop`, ...). -/
inductive GoError where
  | emptyContainerNameAndID
  | emptyImageName
  | containerNotFound
  | containerStartTimeout
  | incorrectPortConfig
  | transport (msg : String)
deriving DecidableEq

/-- The filter handed to `ContainerList` by `fetchContainerData`: either a
name filter (value `"/" + name`) or an id filter. -/
inductive Filter where
  | byName (n : String)
  | byID (i : String)
deriving DecidableEq

/-- One element of the `ContainerList` reply: the fields of the Docker
summary that `fetchContainerData` copies into the container object. -/
structure ContainerRecord where
  ID : String := ""
  State : String := ""
  Status : String := ""
deriving DecidableEq

/-- One observable step of an execution: an engine transport call, or the
one-second sleep of the polling loop. -/
inductive Event where
  | listCall (f : Filter)
  | startCall (id : String)
  | stopCall (id : String)
  | removeCall (id : String)
  | sleepCall (seconds : Int)
deriving DecidableEq

/-- The chronological trace of events, oldest first. -/
abbrev World := List Event

def isListEvent : Event → Bool
  | Event.listCall _ => true
  | _ => false

def isStartEvent : Event → Bool
  | Event.startCall _ => true
  | _ => false

def isStopEvent : Event → Bool
  | Event.stopCall _ => true
  | _ => false

def isRemoveEvent : Event → Bool
  | Event.removeCall _ => true
  | _ => false

def isSleepEvent : Event → Bool
  | Event.sleepCall _ => true
  | _ => false

def countList (w : World) : Nat := w.countP isListEvent

def countStart (w : World) : Nat := w.countP isStartEvent

def countStop (w : World) : Nat := w.countP isStopEvent

def countRemove (w : World) : Nat := w.countP isRemoveEvent

def countSleep (w : World) : Nat := w.countP isSleepEvent

/-- Oracle for the remote Docker engine: the reply each transport call
would produce. `listResult` may vary with time, indexed by the number of
`ContainerList` calls made so far (one unit of observation per poll); the
other operations reply by identifier alone (`none` = success, as for a Go
nil error). -/
structure Engine where
  listResult : Nat → Filter → Except GoError (List ContainerRecord)
  startResult : String → Option GoError
  stopResult : String → Option GoError
  removeResult : String → Option GoError

/-- The Go struct `container` (client.go): mutable identity and observed
state plus the immutable creation options. -/
structure container where
  id : String := ""
  image : String := ""
  state : String := ""
  status : String := ""
  options : Options := {}
deriving DecidableEq

/-- Go `strings.HasPrefix`-style check on character lists: does `p` begin
`s`? Auxiliary to the substring check below. -/
def hasLead : List Char → List Char → Bool
  | _, [] => true
  | [], _ :: _ => false
  | a :: s, b :: p => a == b && hasLead s p

/-- Substring search on character lists (semantics of Go
`strings.Contains`). -/
def hasSubChars : List Char → List Char → Bool
  | [], pat => pat.isEmpty
  | a :: s, pat => hasLead (a :: s) pat || hasSubChars s pat

/-- Semantics of Go `strings.Contains s pat`. -/
def strContains (s pat : String) : Bool := hasSubChars s.toList pat.toList

/-- The constant `containerStateRunning` (client.go). -/
def containerStateRunning : String := "running"

/-- The Docker API constant `types.Starting`; `HasStarted` checks the
status message for `"health: " + types.Starting`. -/
def typesStarting : String := "starting"

/-- Modelled from the spec: `container.getName()` is called by
`fetchContainerData` (client.go line 152) but its definition is not among
the provided source files. Per the spec, state is fetched "by name if set,
else by identifier", and the configured display name of a container lives
in its options (`Options.Name`), so the accessor returns that name. -/
def getName (c : container) : String := c.options.Name

/-- The `switch` at the head of `fetchContainerData` (client.go lines
154-161): a name filter `"/" + name` when the name is set, else an id
filter, else no filter (empty name and id). -/
def fetchFilter (c : container) : Option Filter :=
  if getName c ≠ "" then some (Filter.byName ("/" ++ getName c))
  else if c.id ≠ "" then some (Filter.byID c.id)
  else none

/-- `defaultClient.fetchContainerData` (client.go lines 150-174): resolve
the filter (error `errEmptyContainerNameAndID` when impossible), call
`ContainerList`, propagate its error, report `errContainerNotFound` on an
empty reply, else copy id/state/status of the first match into the
container object. Returns the (possibly updated) container, the extended
trace, and the Go error. -/
def fetchContainerData (eng : Engine) (c : container) (w : World) :
    container × World × Option GoError :=
  match fetchFilter c with
  | none => (c, w, some GoError.emptyContainerNameAndID)
  | some f =>
    match eng.listResult (countList w) f with
    | Except.error e => (c, w ++ [Event.listCall f], some e)
    | Except.ok [] => (c, w ++ [Event.listCall f], some GoError.containerNotFound)
    | Except.ok (first :: _) =>
      ({ c with id := first.ID, state := first.State, status := first.Status },
       w ++ [Event.listCall f], none)

/-- `defaultClient.startContainer`: one `ContainerStart` transport call. -/
def startContainer (eng : Engine) (id : String) (w : World) : World × Option GoError :=
  (w ++ [Event.startCall id], eng.startResult id)

/-- `defaultClient.stopContainer`: one `ContainerStop` transport call. -/
def stopContainer (eng : Engine) (id : String) (w : World) : World × Option GoError :=
  (w ++ [Event.stopCall id], eng.stopResult id)

/-- `defaultClient.removeContainer`: one `ContainerRemove` transport
call. -/
def removeContainer (eng : Engine) (id : String) (w : World) : World × Option GoError :=
  (w ++ [Event.removeCall id], eng.removeResult id)

/-- `defaultClient.stopRemoveContainer`: stop, then remove unless the stop
failed. -/
def stopRemoveContainer (eng : Engine) (id : String) (w : World) : World × Option GoError :=
  match stopContainer eng id w with
  | (w1, some e) => (w1, some e)
  | (w1, none) => removeContainer eng id w1

/-- Public `StartContainer` (client.go): delegates to the client's
`startContainer`. -/
def StartContainer (eng : Engine) (id : String) (w : World) : World × Option GoError :=
  startContainer eng id w

/-- Public `StopContainer` (client.go): delegates to the client's
`stopContainer`. -/
def StopContainer (eng : Engine) (id : String) (w : World) : World × Option GoError :=
  stopContainer eng id w

/-- Public `RemoveContainer` (client.go lines 278-285): its body delegates
to the client's `stopContainer`, exactly as in the source (`return
c.stopContainer(ctx, id)`), although its documentation says it removes the
container. -/
def RemoveContainer (eng : Engine) (id : String) (w : World) : World × Option GoError :=
  stopContainer eng id w

/-- Public `StopRemoveContainer` (client.go): delegates to the client's
`stopRemoveContainer`. -/
def StopRemoveContainer (eng : Engine) (id : String) (w : World) : World × Option GoError :=
  stopRemoveContainer eng id w

/-- `container.fetchData` (client.go): delegates to the package-level
`fetchContainerData` (the `getClient` indirection is identity here). -/
def container.fetchData (eng : Engine) (c : container) (w : World) :
    container × World × Option GoError :=
  fetchContainerData eng c w

/-- `container.Stop` (client.go lines 635-642): fetch state only when the
stored id is empty (propagating any fetch failure), then issue the stop on
the current id. -/
def container.Stop (eng : Engine) (c : container) (w : World) :
    container × World × Option GoError :=
  if c.id.length = 0 then
    match container.fetchData eng c w with
    | (c1, w1, some e) => (c1, w1, some e)
    | (c1, w1, none) =>
      match StopContainer eng c1.id w1 with
      | (w2, e) => (c1, w2, e)
  else
    match StopContainer eng c.id w with
    | (w2, e) => (c, w2, e)

/-- `container.Remove` (client.go lines 645-656): always fetch;
`errContainerNotFound` is swallowed (success), a successful fetch proceeds
to `RemoveContainer` on the fetched id, any other fetch error is
returned. -/
def container.Remove (eng : Engine) (c : container) (w : World) :
    container × World × Option GoError :=
  match container.fetchData eng c w with
  | (c1, w1, some GoError.containerNotFound) => (c1, w1, none)
  | (c1, w1, none) =>
    match RemoveContainer eng c1.id w1 with
    | (w2, e) => (c1, w2, e)
  | (c1, w1, some e) => (c1, w1, some e)

/-- `container.StopRemove` (client.go lines 659-670): always fetch;
`errContainerNotFound` is swallowed (success), a successful fetch proceeds
to `StopRemoveContainer` on the fetched id, any other fetch error is
returned. -/
def container.StopRemove (eng : Engine) (c : container) (w : World) :
    container × World × Option GoError :=
  match container.fetchData eng c w with
  | (c1, w1, some GoError.containerNotFound) => (c1, w1, none)
  | (c1, w1, none) =>
    match StopRemoveContainer eng c1.id w1 with
    | (w2, e) => (c1, w2, e)
  | (c1, w1, some e) => (c1, w1, some e)

/-- `container.HasStarted` (client.go lines 675-680): fetch (surfacing any
failure with a false result), then report whether the state is `running`
and the status message does not contain `"health: starting"`. -/
def container.HasStarted (eng : Engine) (c : container) (w : World) :
    container × World × Bool × Option GoError :=
  match container.fetchData eng c w with
  | (c1, w1, some e) => (c1, w1, false, some e)
  | (c1, w1, none) =>
    (c1, w1,
     (c1.state == containerStateRunning
       && !(strContains c1.status ("health: " ++ typesStarting))),
     none)

/-- The polling loop of `container.Start` (client.go lines 606-613):
`t := 0; for t < c.options.StartTimeout { if started, _ =
c.HasStarted(ctx); started { break }; time.Sleep(time.Second * 1); t++ }`.
The counter is represented by the number of remaining iterations
`StartTimeout - t`; the error of each in-loop `HasStarted` is discarded,
and each unsuccessful check is followed by a recorded one-second sleep.
Returns the container, the trace, and the final value of `started`. -/
def startLoop (eng : Engine) : Nat → container → World → container × World × Bool
  | 0, c, w => (c, w, false)
  | remaining + 1, c, w =>
    match container.HasStarted eng c w with
    | (c1, w1, true, _) => (c1, w1, true)
    | (c1, w1, false, _) => startLoop eng remaining c1 (w1 ++ [Event.sleepCall 1])

/-- `container.Start` (client.go lines 593-619): an initial `HasStarted`
(surfacing its error; returning at once when already started), then one
`StartContainer` call (surfacing its error), then the bounded polling
loop; a loop that ends without `started` yields
`errContainerStartTimeout`. -/
def container.Start (eng : Engine) (c : container) (w : World) :
    container × World × Option GoError :=
  match container.HasStarted eng c w with
  | (c1, w1, _, some e) => (c1, w1, some e)
  | (c1, w1, true, none) => (c1, w1, none)
  | (c1, w1, false, none) =>
    match StartContainer eng c1.id w1 with
    | (w2, some e) => (c1, w2, some e)
    | (w2, none) =>
      match startLoop eng c1.options.StartTimeout.toNat c1 w2 with
      | (c2, w3, started) =>
        if !started then (c2, w3, some GoError.containerStartTimeout)
        else (c2, w3, none)

end docker

section dockerChecks

/-- A fixed engine used in sanity checks: one running container named
`c`. -/
def engRunning : docker.Engine :=
  { listResult := fun _ _ => Except.ok [{ ID := "abc", State := "running", Status := "Up 8 hours" }]
    startResult := fun _ => none
    stopResult := fun _ => none
    removeResult := fun _ => none }

def cNamed : docker.container := { options := { Name := "c", StartTimeout := 60 } }

example : (docker.container.HasStarted engRunning cNamed []).2.2.1 = true := by rfl

example : (docker.container.Start engRunning cNamed []).2.2 = none := by rfl

example : (docker.container.Remove engRunning cNamed []).2.1 =
    [docker.Event.listCall (docker.Filter.byName "/c"), docker.Event.stopCall "abc"] := by rfl

end dockerChecks

/-- C1: the merge produced by `combineContainerOptions` (and hence by
`asCustomizedContainer`) takes, for each of the five fields — display
name, health-check command, environment-variable list, exposed-port list,
start-timeout — the override's value exactly when it is present
(non-empty string, non-empty list, positive timeout) and the base's value
otherwise; an override list fully replaces the base list. -/
theorem combineContainerOptions_presence_wins
    (p : presets.defaultContainerPreset) (o b : docker.Options)
    (h : presets.getPresetContainerOptions p = Except.ok b) :
    presets.combineContainerOptions p (some o) = Except.ok
      { Name := if o.Name ≠ "" then o.Name else b.Name
        Healthcheck := if o.Healthcheck ≠ "" then o.Healthcheck else b.Healthcheck
        EnvironmentVariables := if o.EnvironmentVariables.length > 0 then
            o.EnvironmentVariables else b.EnvironmentVariables
        ExposedPorts := if o.ExposedPorts.length > 0 then o.ExposedPorts else b.ExposedPorts
        StartTimeout := if o.StartTimeout > 0 then o.StartTimeout else b.StartTimeout } := by
  unfold presets.combineContainerOptions
  rw [h]
  by_cases h1 : o.Name = "" <;> by_cases h2 : o.EnvironmentVariables.length > 0 <;>
    by_cases h3 : o.ExposedPorts.length > 0 <;> by_cases h4 : o.Healthcheck = "" <;>
    by_cases h5 : o.StartTimeout > 0 <;>
    simp [h1, h2, h3, h4, h5]

/-- Concrete preset used by the witnesses: the spec's port-override
scenario (base port list `5432:5432`, override `5432:5433`). -/
def presetW : presets.defaultContainerPreset :=
  { Container := { Name := "postgres"
                   Env := [⟨"PGPORT", presets.EnvValue.intVal 5432⟩]
                   Ports := ["5432:5432"]
                   Healthcheck := "pg_isready" }
    Image := { Name := "postgres:16" } }

def overrideW : docker.Options := { ExposedPorts := ["5432:5433"], StartTimeout := 30 }

def baseW : docker.Options :=
  { Name := "postgres"
    Healthcheck := "pg_isready"
    EnvironmentVariables := ["PGPORT=5432"]
    ExposedPorts := ["5432:5432"]
    StartTimeout := 0 }

/-- Witness for C1 at a concrete preset and override: the merged options
keep the base's name, health check and environment but take the override's
ports and timeout. -/
theorem combineContainerOptions_presence_wins_witness :
    presets.getPresetContainerOptions presetW = Except.ok baseW ∧
    presets.combineContainerOptions presetW (some overrideW) = Except.ok
      { Name := "postgres"
        Healthcheck := "pg_isready"
        EnvironmentVariables := ["PGPORT=5432"]
        ExposedPorts := ["5432:5433"]
        StartTimeout := 30 } := by
  refine ⟨by rfl, ?_⟩
  have h := combineContainerOptions_presence_wins presetW overrideW baseW (by rfl)
  simpa [overrideW, baseW] using h

/-- Positions and rendered texts of a successful `envs.toSliceLoop` run
(auxiliary to C9). -/
theorem toSliceLoop_ok_characterization (e : presets.envs) :
    ∀ l, presets.envs.toSliceLoop e = Except.ok l →
      l.length = e.length ∧
      ∀ i el, e.get? i = some el →
        ∃ x, presets.envValueText el.Value = some x ∧
          l.get? i = some (el.Name ++ "=" ++ x) := by
  induction e with
  | nil =>
    intro l hl
    simp only [presets.envs.toSliceLoop, Except.ok.injEq] at hl
    subst hl
    exact ⟨rfl, by intro i el h; simp at h⟩
  | cons el rest ih =>
    intro l hl
    cases hrest : presets.envs.toSliceLoop rest with
    | error m =>
      cases hv : el.Value <;> simp [presets.envs.toSliceLoop, hv, hrest] at hl
    | ok tail =>
      cases hv : el.Value with
      | intVal v =>
        simp only [presets.envs.toSliceLoop, hv, hrest, Except.ok.injEq] at hl
        subst hl
        obtain ⟨hlen, hget⟩ := ih tail hrest
        refine ⟨by simp [hlen], ?_⟩
        intro i el2 h
        cases i with
        | zero =>
          simp only [List.get?_cons_zero, Option.some.injEq] at h
          subst h
          exact ⟨toString v, by simp [presets.envValueText, hv], by simp⟩
        | succ j =>
          simp only [List.get?_cons_succ] at h ⊢
          exact hget j el2 h
      | strVal v =>
        simp only [presets.envs.toSliceLoop, hv, hrest, Except.ok.injEq] at hl
        subst hl
        obtain ⟨hlen, hget⟩ := ih tail hrest
        refine ⟨by simp [hlen], ?_⟩
        intro i el2 h
        cases i with
        | zero =>
          simp only [List.get?_cons_zero, Option.some.injEq] at h
          subst h
          exact ⟨v, by simp [presets.envValueText, hv], by simp⟩
        | succ j =>
          simp only [List.get?_cons_succ] at h ⊢
          exact hget j el2 h
      | otherVal =>
        simp [presets.envs.toSliceLoop, hv, hrest] at hl

/-- An unhandled value anywhere in the list makes `envs.toSliceLoop` panic
(auxiliary to C9). -/
theorem toSliceLoop_err_of_otherVal (e : presets.envs) :
    (∃ el, el ∈ e ∧ el.Value = presets.EnvValue.otherVal) →
    ∃ m, presets.envs.toSliceLoop e = Except.error m := by
  induction e with
  | nil => intro h; obtain ⟨el, hmem, _⟩ := h; simp at hmem
  | cons el rest ih =>
    intro h
    cases hv : el.Value with
    | otherVal => exact ⟨"unhandled preset.env value type", by simp [presets.envs.toSliceLoop, hv]⟩
    | intVal v =>
      obtain ⟨el2, hmem, hval⟩ := h
      rcases List.mem_cons.mp hmem with heq | hmem2
      · subst heq; rw [hv] at hval; cases hval
      · obtain ⟨m, hm⟩ := ih ⟨el2, hmem2, hval⟩
        exact ⟨m, by simp [presets.envs.toSliceLoop, hv, hm]⟩
    | strVal v =>
      obtain ⟨el2, hmem, hval⟩ := h
      rcases List.mem_cons.mp hmem with heq | hmem2
      · subst heq; rw [hv] at hval; cases hval
      · obtain ⟨m, hm⟩ := ih ⟨el2, hmem2, hval⟩
        exact ⟨m, by simp [presets.envs.toSliceLoop, hv, hm]⟩

/-- C9: flattening a preset environment list to KEY=VALUE strings
serializes every integer value to its base-10 decimal text, uses every
string value as-is (position by position, in order), and panics on a value
of any other dynamic type. -/
theorem toSlice_decimal_serialization (e : presets.envs) :
    (∀ l, presets.envs.toSlice e = Except.ok l →
        l.length = e.length ∧
        ∀ i el, e.get? i = some el →
          ∃ x, presets.envValueText el.Value = some x ∧
            l.get? i = some (el.Name ++ "=" ++ x)) ∧
    ((∃ el, el ∈ e ∧ el.Value = presets.EnvValue.otherVal) →
        ∃ m, presets.envs.toSlice e = Except.error m) := by
  constructor
  · intro l hl
    by_cases he : e.length = 0
    · have : e = [] := List.length_eq_zero.mp he
      subst this
      simp only [presets.envs.toSlice, List.length_nil, if_true, reduceIte,
        Except.ok.injEq] at hl
      subst hl
      exact ⟨rfl, by intro i el h; simp at h⟩
    · rw [presets.envs.toSlice, if_neg he] at hl
      exact toSliceLoop_ok_characterization e l hl
  · intro h
    by_cases he : e.length = 0
    · have : e = [] := List.length_eq_zero.mp he
      subst this
      obtain ⟨el, hmem, _⟩ := h
      simp at hmem
    · obtain ⟨m, hm⟩ := toSliceLoop_err_of_otherVal e h
      exact ⟨m, by rw [presets.envs.toSlice, if_neg he]; exact hm⟩

/-- Witness for C9: the spec's example — integer value 5432 under name
PGPORT flattens to the string PGPORT=5432 at its position. -/
theorem toSlice_decimal_serialization_witness :
    presets.envs.toSlice
        [⟨"PGPORT", presets.EnvValue.intVal 5432⟩, ⟨"PGUSER", presets.EnvValue.strVal "postgres"⟩] =
      Except.ok ["PGPORT=5432", "PGUSER=postgres"] ∧
    (∃ x, presets.envValueText (presets.EnvValue.intVal 5432) = some x ∧
      (["PGPORT=5432", "PGUSER=postgres"] : List String).get? 0 = some ("PGPORT" ++ "=" ++ x)) := by
  constructor
  · rfl
  · have h := (toSlice_decimal_serialization
      [⟨"PGPORT", presets.EnvValue.intVal 5432⟩, ⟨"PGUSER", presets.EnvValue.strVal "postgres"⟩]).1
      ["PGPORT=5432", "PGUSER=postgres"] (by rfl)
    exact h.2 0 ⟨"PGPORT", presets.EnvValue.intVal 5432⟩ (by rfl)

namespace docker

/-- The readiness verdict `HasStarted` derives from one `ContainerList`
reply: some container is listed, its state is `running`, and its status
message does not contain the in-progress health marker. -/
def responseStarted (resp : Except GoError (List ContainerRecord)) : Bool :=
  match resp with
  | Except.ok (r :: _) =>
    r.State == containerStateRunning && !(strContains r.Status ("health: " ++ typesStarting))
  | _ => false

theorem countList_append (w t : World) : countList (w ++ t) = countList w + countList t :=
  List.countP_append _ _ _

theorem countStart_append (w t : World) : countStart (w ++ t) = countStart w + countStart t :=
  List.countP_append _ _ _

theorem countStop_append (w t : World) : countStop (w ++ t) = countStop w + countStop t :=
  List.countP_append _ _ _

theorem countRemove_append (w t : World) : countRemove (w ++ t) = countRemove w + countRemove t :=
  List.countP_append _ _ _

theorem countSleep_append (w t : World) : countSleep (w ++ t) = countSleep w + countSleep t :=
  List.countP_append _ _ _

/-- The options (and with them the configured name) survive a fetch,
whatever its outcome. -/
theorem fetchContainerData_options (eng : Engine) (c : container) (w : World) :
    (fetchContainerData eng c w).1.options = c.options := by
  unfold fetchContainerData
  split
  · rfl
  · split <;> rfl

/-- When the filter resolves, a fetch appends exactly one list call to the
trace, whatever the engine replies. -/
theorem fetchContainerData_world (eng : Engine) (c : container) (w : World) (f : Filter)
    (hf : fetchFilter c = some f) :
    (fetchContainerData eng c w).2.1 = w ++ [Event.listCall f] := by
  simp only [fetchContainerData, hf]
  split <;> rfl

/-- When the filter does not resolve, a fetch leaves the trace alone. -/
theorem fetchContainerData_world_none (eng : Engine) (c : container) (w : World)
    (hf : fetchFilter c = none) :
    fetchContainerData eng c w = (c, w, some GoError.emptyContainerNameAndID) := by
  unfold fetchContainerData
  rw [hf]

/-- The boolean computed by `HasStarted` equals the readiness verdict of
the engine reply to the resolved filter (false when no filter
resolves). -/
theorem hasStarted_bool (eng : Engine) (c : container) (w : World) :
    (container.HasStarted eng c w).2.2.1 =
      (match fetchFilter c with
       | none => false
       | some f => responseStarted (eng.listResult (countList w) f)) := by
  unfold container.HasStarted container.fetchData fetchContainerData
  cases hf : fetchFilter c with
  | none => rfl
  | some f =>
    cases hr : eng.listResult (countList w) f with
    | error e => simp [responseStarted, hr]
    | ok l => cases l with
      | nil => simp [responseStarted, hr]
      | cons r rest => simp [responseStarted, hr]

/-- `HasStarted` preserves the options of the container object. -/
theorem hasStarted_options (eng : Engine) (c : container) (w : World) :
    (container.HasStarted eng c w).1.options = c.options := by
  unfold container.HasStarted container.fetchData
  rcases hfd : fetchContainerData eng c w with ⟨c1, w1, e⟩
  have := fetchContainerData_options eng c w
  rw [hfd] at this
  cases e with
  | none => exact this
  | some e => exact this

/-- `HasStarted` with a resolved filter extends the trace by exactly the
one list call of its fetch. -/
theorem hasStarted_world (eng : Engine) (c : container) (w : World) (f : Filter)
    (hf : fetchFilter c = some f) :
    (container.HasStarted eng c w).2.1 = w ++ [Event.listCall f] := by
  unfold container.HasStarted container.fetchData
  rcases hfd : fetchContainerData eng c w with ⟨c1, w1, e⟩
  have := fetchContainerData_world eng c w f hf
  rw [hfd] at this
  cases e with
  | none => exact this
  | some e => exact this

/-- `HasStarted` with an unresolved filter leaves both the container and
the trace alone and fails. -/
theorem hasStarted_world_none (eng : Engine) (c : container) (w : World)
    (hf : fetchFilter c = none) :
    container.HasStarted eng c w = (c, w, false, some GoError.emptyContainerNameAndID) := by
  unfold container.HasStarted container.fetchData
  rw [fetchContainerData_world_none eng c w hf]

/-- A `HasStarted` call issues no start, stop, remove or sleep event and at
most one list call. -/
theorem hasStarted_counts (eng : Engine) (c : container) (w : World) :
    countStart (container.HasStarted eng c w).2.1 = countStart w ∧
    countSleep (container.HasStarted eng c w).2.1 = countSleep w ∧
    countStop (container.HasStarted eng c w).2.1 = countStop w ∧
    countRemove (container.HasStarted eng c w).2.1 = countRemove w ∧
    countList w ≤ countList (container.HasStarted eng c w).2.1 ∧
    countList (container.HasStarted eng c w).2.1 ≤ countList w + 1 := by
  cases hf : fetchFilter c with
  | none =>
    rw [hasStarted_world_none eng c w hf]
    exact ⟨rfl, rfl, rfl, rfl, Nat.le_refl _, Nat.le_succ _⟩
  | some f =>
    rw [hasStarted_world eng c w f hf]
    refine ⟨?_, ?_, ?_, ?_, ?_, ?_⟩ <;>
      simp [countStart_append, countSleep_append, countStop_append, countRemove_append,
        countList_append, countStart, countSleep, countStop, countRemove, countList,
        isStartEvent, isSleepEvent, isStopEvent, isRemoveEvent, isListEvent]

/-- A string has length zero exactly when it is empty. -/
theorem strLength_zero_iff (s : String) : s.length = 0 ↔ s = "" := by
  constructor
  · intro h
    cases s with
    | mk data =>
      have hd : data = [] := List.length_eq_zero.mp h
      subst hd
      rfl
  · intro h
    subst h
    rfl

/-- The health marker checked by `HasStarted`. -/
theorem healthMarker_eq : "health: " ++ typesStarting = "health: starting" := rfl

theorem containerStateRunning_eq : containerStateRunning = "running" := rfl

end docker

/-- C10: a failing state refresh — unresolvable identity, an engine list
error, or no matching container — leaves the container object exactly as
it was; only a successful refresh mutates it, and then precisely by
copying the identifier, state and status of the first listed container. -/
theorem fetchContainerData_frame (eng : docker.Engine) (c : docker.container) (w : docker.World) :
    (∀ c1 w1 e, docker.fetchContainerData eng c w = (c1, w1, some e) → c1 = c) ∧
    (∀ c1 w1, docker.fetchContainerData eng c w = (c1, w1, none) →
      ∃ f r rest, docker.fetchFilter c = some f ∧
        eng.listResult (docker.countList w) f = Except.ok (r :: rest) ∧
        c1 = { c with id := r.ID, state := r.State, status := r.Status }) := by
  constructor
  · intro c1 w1 e h
    cases hf : docker.fetchFilter c with
    | none =>
      rw [docker.fetchContainerData_world_none eng c w hf] at h
      simp only [Prod.mk.injEq] at h
      exact h.1.symm
    | some f =>
      simp only [docker.fetchContainerData, hf] at h
      rcases hr : eng.listResult (docker.countList w) f with e2 | l
      · rw [hr] at h
        simp only [Prod.mk.injEq] at h
        exact h.1.symm
      · cases l with
        | nil =>
          rw [hr] at h
          simp only [Prod.mk.injEq] at h
          exact h.1.symm
        | cons r rest =>
          rw [hr] at h
          simp only [Prod.mk.injEq] at h
          exact absurd h.2.2 (by simp)
  · intro c1 w1 h
    cases hf : docker.fetchFilter c with
    | none =>
      rw [docker.fetchContainerData_world_none eng c w hf] at h
      simp only [Prod.mk.injEq] at h
      exact absurd h.2.2 (by simp)
    | some f =>
      simp only [docker.fetchContainerData, hf] at h
      rcases hr : eng.listResult (docker.countList w) f with e2 | l
      · rw [hr] at h
        simp only [Prod.mk.injEq] at h
        exact absurd h.2.2 (by simp)
      · cases l with
        | nil =>
          rw [hr] at h
          simp only [Prod.mk.injEq] at h
          exact absurd h.2.2 (by simp)
        | cons r rest =>
          rw [hr] at h
          simp only [Prod.mk.injEq] at h
          exact ⟨f, r, rest, rfl, hr, h.1.symm⟩

/-- Witness for C10: with an engine whose list call fails, the refresh
returns the transport error and the container object is unchanged. -/
def engListFails : docker.Engine :=
  { listResult := fun _ _ => Except.error (docker.GoError.transport "boom")
    startResult := fun _ => none
    stopResult := fun _ => none
    removeResult := fun _ => none }

theorem fetchContainerData_frame_witness :
    (docker.fetchContainerData engListFails cNamed []).1 = cNamed := by
  exact (fetchContainerData_frame engListFails cNamed []).1
    (docker.fetchContainerData engListFails cNamed []).1
    (docker.fetchContainerData engListFails cNamed []).2.1
    (docker.GoError.transport "boom") (by rfl)

/-- C4: `HasStarted` surfaces every fetch failure (notably NotFound)
together with a false result, and on a successful fetch answers true
exactly when the fetched state is `running` and the fetched status message
does not contain the marker `health: starting`. -/
theorem hasStarted_running_no_marker (eng : docker.Engine) (c : docker.container)
    (w : docker.World) :
    (∀ c1 w1 b e, docker.container.HasStarted eng c w = (c1, w1, b, some e) →
        b = false ∧ docker.fetchContainerData eng c w = (c1, w1, some e)) ∧
    (∀ c1 w1 e, docker.fetchContainerData eng c w = (c1, w1, some e) →
        docker.container.HasStarted eng c w = (c1, w1, false, some e)) ∧
    (∀ f r rest, docker.fetchFilter c = some f →
        eng.listResult (docker.countList w) f = Except.ok (r :: rest) →
        docker.container.HasStarted eng c w =
          ({ c with id := r.ID, state := r.State, status := r.Status },
           w ++ [docker.Event.listCall f],
           (r.State == "running" && !(docker.strContains r.Status "health: starting")),
           none)) := by
  refine ⟨?_, ?_, ?_⟩
  · intro c1 w1 b e h
    rcases hfd : docker.fetchContainerData eng c w with ⟨c2, w2, e2⟩
    unfold docker.container.HasStarted docker.container.fetchData at h
    rw [hfd] at h
    cases e2 with
    | none =>
      simp only [Prod.mk.injEq] at h
      exact absurd h.2.2.2 (by simp)
    | some e3 =>
      simp only [Prod.mk.injEq, Option.some.injEq] at h
      obtain ⟨h1, h2, h3, h4⟩ := h
      exact ⟨h3.symm, by rw [h1, h2, h4]⟩
  · intro c1 w1 e h
    unfold docker.container.HasStarted docker.container.fetchData
    rw [h]
  · intro f r rest hf hr
    unfold docker.container.HasStarted docker.container.fetchData
    simp only [docker.fetchContainerData, hf, hr, docker.containerStateRunning_eq,
      docker.healthMarker_eq]

/-- Witness for C4: a container whose status message carries the marker is
not started even though its state is running; the NotFound failure of an
empty listing is surfaced with a false verdict. -/
def engHealthStarting : docker.Engine :=
  { listResult := fun _ _ =>
      Except.ok [{ ID := "abc", State := "running", Status := "Up 2 seconds (health: starting)" }]
    startResult := fun _ => none
    stopResult := fun _ => none
    removeResult := fun _ => none }

/-- An engine that lists no containers at all (every resource absent). -/
def engEmptyList : docker.Engine :=
  { listResult := fun _ _ => Except.ok []
    startResult := fun _ => none
    stopResult := fun _ => none
    removeResult := fun _ => none }

theorem hasStarted_running_no_marker_witness :
    docker.container.HasStarted engHealthStarting cNamed [] =
      ({ cNamed with
          id := "abc"
          state := "running"
          status := "Up 2 seconds (health: starting)" },
       [docker.Event.listCall (docker.Filter.byName "/c")],
       false, none) ∧
    (docker.container.HasStarted engEmptyList cNamed []).2.2 =
      (false, some docker.GoError.containerNotFound) := by
  constructor
  · have h := (hasStarted_running_no_marker engHealthStarting cNamed []).2.2
      (docker.Filter.byName "/c")
      { ID := "abc", State := "running", Status := "Up 2 seconds (health: starting)" }
      [] (by rfl) (by rfl)
    simpa using h
  · have h := (hasStarted_running_no_marker engEmptyList cNamed []).2.1
      cNamed [docker.Event.listCall (docker.Filter.byName "/c")]
      docker.GoError.containerNotFound (by rfl)
    rw [h]

namespace docker

/-- A failing fetch leaves the container object untouched (shared engine of
the teardown lemmas). -/
theorem fetch_err_frame (eng : Engine) (c : container) (w : World) :
    ∀ c1 w1 e, fetchContainerData eng c w = (c1, w1, some e) → c1 = c := by
  intro c1 w1 e h
  cases hf : fetchFilter c with
  | none =>
    rw [fetchContainerData_world_none eng c w hf] at h
    simp only [Prod.mk.injEq] at h
    exact h.1.symm
  | some f =>
    simp only [fetchContainerData, hf] at h
    rcases hr : eng.listResult (countList w) f with e2 | l
    · rw [hr] at h
      simp only [Prod.mk.injEq] at h
      exact h.1.symm
    · cases l with
      | nil =>
        rw [hr] at h
        simp only [Prod.mk.injEq] at h
        exact h.1.symm
      | cons r rest =>
        rw [hr] at h
        simp only [Prod.mk.injEq] at h
        exact absurd h.2.2 (by simp)

/-- Shape of a successful fetch: a resolved filter, a non-empty listing,
the first record copied in, one list call appended. -/
theorem fetch_ok_shape (eng : Engine) (c : container) (w : World) :
    ∀ c1 w1, fetchContainerData eng c w = (c1, w1, none) →
      ∃ f r rest, fetchFilter c = some f ∧
        eng.listResult (countList w) f = Except.ok (r :: rest) ∧
        c1 = { c with id := r.ID, state := r.State, status := r.Status } ∧
        w1 = w ++ [Event.listCall f] := by
  intro c1 w1 h
  cases hf : fetchFilter c with
  | none =>
    rw [fetchContainerData_world_none eng c w hf] at h
    simp only [Prod.mk.injEq] at h
    exact absurd h.2.2 (by simp)
  | some f =>
    simp only [fetchContainerData, hf] at h
    rcases hr : eng.listResult (countList w) f with e2 | l
    · rw [hr] at h
      simp only [Prod.mk.injEq] at h
      exact absurd h.2.2 (by simp)
    · cases l with
      | nil =>
        rw [hr] at h
        simp only [Prod.mk.injEq] at h
        exact absurd h.2.2 (by simp)
      | cons r rest =>
        rw [hr] at h
        simp only [Prod.mk.injEq] at h
        exact ⟨f, r, rest, rfl, hr, h.1.symm, h.2.1.symm⟩

/-- With a time-independent engine, a fetch that reports NotFound keeps
reporting NotFound whatever the trace position. -/
theorem fetch_notFound_stable (eng : Engine)
    (hStatic : ∀ n m f, eng.listResult n f = eng.listResult m f)
    (c : container) (w : World)
    (h : (fetchContainerData eng c w).2.2 = some GoError.containerNotFound) :
    ∀ w2, (fetchContainerData eng c w2).2.2 = some GoError.containerNotFound := by
  intro w2
  cases hf : fetchFilter c with
  | none =>
    rw [fetchContainerData_world_none eng c w hf] at h
    injection h with h2
    exact GoError.noConfusion h2
  | some f =>
    have hsw : eng.listResult (countList w2) f = eng.listResult (countList w) f :=
      hStatic _ _ f
    simp only [fetchContainerData, hf] at h ⊢
    rcases hr : eng.listResult (countList w) f with e2 | l
    · rw [hr] at h
      simp only [Option.some.injEq] at h
      rw [hsw, hr, h]
    · cases l with
      | nil =>
        rw [hsw, hr]
      | cons r rest =>
        rw [hr] at h
        exact absurd h (by simp)

/-- With a time-independent, id-consistent engine, re-fetching the
container produced by a successful fetch succeeds again and leaves the
object fixed. -/
theorem refetch_stable (eng : Engine)
    (hStatic : ∀ n m f, eng.listResult n f = eng.listResult m f)
    (hCons : ∀ n i r rest, eng.listResult n (Filter.byID i) = Except.ok (r :: rest) → r.ID = i)
    (c c1 : container) (w w1 : World)
    (h : fetchContainerData eng c w = (c1, w1, none)) :
    ∃ f, fetchFilter c = some f ∧ fetchFilter c1 = some f ∧
      ∀ w2, fetchContainerData eng c1 w2 = (c1, w2 ++ [Event.listCall f], none) := by
  obtain ⟨f, r, rest, hf, hr, hc1, hw1⟩ := fetch_ok_shape eng c w c1 w1 h
  have hf1 : fetchFilter c1 = some f := by
    subst hc1
    by_cases hn : c.options.Name = ""
    · by_cases hid : c.id = ""
      · exfalso
        rw [fetchFilter] at hf
        simp [getName, hn, hid] at hf
      · have hfv : f = Filter.byID c.id := by
          rw [fetchFilter] at hf
          simp [getName, hn, hid] at hf
          exact hf.symm
        have hrid : r.ID = c.id :=
          hCons (countList w) c.id r rest (by rw [← hfv]; exact hr)
        rw [fetchFilter]
        simp [getName, hn, hid, hrid, hfv]
    · have hfv : f = Filter.byName ("/" ++ c.options.Name) := by
        rw [fetchFilter] at hf
        simp [getName, hn] at hf
        exact hf.symm
      rw [fetchFilter]
      simp [getName, hn, hfv]
  refine ⟨f, hf, hf1, ?_⟩
  intro w2
  have hrw : eng.listResult (countList w2) f = Except.ok (r :: rest) := by
    rw [hStatic (countList w2) (countList w) f]
    exact hr
  simp only [fetchContainerData, hf1, hrw]
  subst hc1
  rfl

end docker

/-- C8 counterexample: the claim says every `Stop` refreshes state first;
a container whose identifier is already set skips the refresh entirely —
the run below issues only the one stop call and no list call. -/
def cWithID : docker.container := { id := "abc", options := { Name := "n", StartTimeout := 60 } }

theorem stop_skips_refresh_counterexample :
    docker.container.Stop engRunning cWithID [] = (cWithID, [docker.Event.stopCall "abc"], none) ∧
    docker.countList (docker.container.Stop engRunning cWithID []).2.1 = 0 := by
  exact ⟨rfl, rfl⟩

/-- C8 (amended): `Stop` refreshes the observed state (to obtain a current
identifier) only when the stored identifier is empty, and then issues the
stop on the fetched identifier, propagating any fetch failure; with an
identifier already present it stops directly with no refresh; with both
name and identifier empty it fails with the validation error
`errEmptyContainerNameAndID` having performed zero engine calls. -/
theorem stop_refresh_only_when_id_empty (eng : docker.Engine) (c : docker.container)
    (w : docker.World) :
    (c.id = "" → docker.getName c = "" →
        docker.container.Stop eng c w = (c, w, some docker.GoError.emptyContainerNameAndID)) ∧
    (c.id ≠ "" →
        docker.container.Stop eng c w = (c, w ++ [docker.Event.stopCall c.id], eng.stopResult c.id)) ∧
    (c.id = "" → ∀ c1 w1 e, docker.fetchContainerData eng c w = (c1, w1, some e) →
        docker.container.Stop eng c w = (c1, w1, some e)) ∧
    (c.id = "" → ∀ c1 w1, docker.fetchContainerData eng c w = (c1, w1, none) →
        docker.container.Stop eng c w =
          (c1, w1 ++ [docker.Event.stopCall c1.id], eng.stopResult c1.id)) := by
  refine ⟨?_, ?_, ?_, ?_⟩
  · intro h1 h2
    have hlen : c.id.length = 0 := by rw [h1]; rfl
    have hf : docker.fetchFilter c = none := by
      rw [docker.fetchFilter]
      simp [h1, h2]
    unfold docker.container.Stop
    rw [if_pos hlen]
    unfold docker.container.fetchData
    rw [docker.fetchContainerData_world_none eng c w hf]
  · intro h
    have hlen : ¬ c.id.length = 0 := fun hh => h ((docker.strLength_zero_iff c.id).mp hh)
    unfold docker.container.Stop
    rw [if_neg hlen]
    rfl
  · intro h1 c1 w1 e h
    have hlen : c.id.length = 0 := by rw [h1]; rfl
    unfold docker.container.Stop
    rw [if_pos hlen]
    unfold docker.container.fetchData
    rw [h]
  · intro h1 c1 w1 h
    have hlen : c.id.length = 0 := by rw [h1]; rfl
    unfold docker.container.Stop
    rw [if_pos hlen]
    unfold docker.container.fetchData
    rw [h]
    rfl

/-- Witness for C8 (amended): a named container with empty identifier
fetches, picks up the identifier, then stops it; the empty/empty container
fails with the validation error without any engine call. -/
theorem stop_refresh_only_when_id_empty_witness :
    docker.container.Stop engRunning cNamed [] =
      ({ cNamed with id := "abc", state := "running", status := "Up 8 hours" },
       [docker.Event.listCall (docker.Filter.byName "/c"), docker.Event.stopCall "abc"],
       none) ∧
    docker.container.Stop engRunning {} [] =
      ({}, [], some docker.GoError.emptyContainerNameAndID) := by
  constructor
  · have h := (stop_refresh_only_when_id_empty engRunning cNamed []).2.2.2 rfl
      ({ cNamed with id := "abc", state := "running", status := "Up 8 hours" })
      [docker.Event.listCall (docker.Filter.byName "/c")] (by rfl)
    simpa using h
  · exact (stop_refresh_only_when_id_empty engRunning {} []).1 rfl rfl

/-- C7: when the initial `HasStarted` answers true, `Start` is an
idempotent no-op — no start command is issued and no polling happens; when
the initial `HasStarted` fails, `Start` surfaces that error, again without
issuing a start command. -/
theorem start_noop_when_already_started (eng : docker.Engine) (c : docker.container)
    (w : docker.World) :
    (∀ c1 w1, docker.container.HasStarted eng c w = (c1, w1, true, none) →
        docker.container.Start eng c w = (c1, w1, none) ∧
        docker.countStart w1 = docker.countStart w ∧
        docker.countSleep w1 = docker.countSleep w) ∧
    (∀ c1 w1 b e, docker.container.HasStarted eng c w = (c1, w1, b, some e) →
        docker.container.Start eng c w = (c1, w1, some e) ∧
        docker.countStart w1 = docker.countStart w ∧
        docker.countSleep w1 = docker.countSleep w) := by
  constructor
  · intro c1 w1 h
    have hc := docker.hasStarted_counts eng c w
    rw [h] at hc
    refine ⟨?_, hc.1, hc.2.1⟩
    unfold docker.container.Start
    rw [h]
  · intro c1 w1 b e h
    have hc := docker.hasStarted_counts eng c w
    rw [h] at hc
    refine ⟨?_, hc.1, hc.2.1⟩
    unfold docker.container.Start
    rw [h]
    cases b <;> rfl

/-- Witness for C7: on an engine already reporting `running`, `Start`
returns at once with only the one list call of the readiness probe in the
trace; on a failing engine the fetch error is surfaced. -/
theorem start_noop_when_already_started_witness :
    docker.container.Start engRunning cNamed [] =
      ({ cNamed with id := "abc", state := "running", status := "Up 8 hours" },
       [docker.Event.listCall (docker.Filter.byName "/c")], none) ∧
    docker.container.Start engListFails cNamed [] =
      (cNamed, [docker.Event.listCall (docker.Filter.byName "/c")],
       some (docker.GoError.transport "boom")) := by
  constructor
  · exact ((start_noop_when_already_started engRunning cNamed []).1
      ({ cNamed with id := "abc", state := "running", status := "Up 8 hours" })
      [docker.Event.listCall (docker.Filter.byName "/c")] (by rfl)).1
  · exact ((start_noop_when_already_started engListFails cNamed []).2
      cNamed [docker.Event.listCall (docker.Filter.byName "/c")] false
      (docker.GoError.transport "boom") (by rfl)).1

/-- C2 (code bug): `Remove`, on a container whose refresh succeeds,
delegates to `RemoveContainer`, whose body issues the engine stop
operation instead of the remove operation; the run below performs one list
call and one stop call, no remove call, contradicting both the claim and
the source's own documentation of `RemoveContainer`. -/
theorem remove_issues_stop_not_remove :
    docker.container.Remove engRunning cNamed [] =
      ({ cNamed with id := "abc", state := "running", status := "Up 8 hours" },
       [docker.Event.listCall (docker.Filter.byName "/c"), docker.Event.stopCall "abc"],
       none) ∧
    docker.countRemove (docker.container.Remove engRunning cNamed []).2.1 = 0 ∧
    docker.countStop (docker.container.Remove engRunning cNamed []).2.1 = 1 := by
  exact ⟨rfl, rfl, rfl⟩

/-- C3: on an unchanged, consistent remote (time-independent replies,
id-queries answering with that id), `Remove` and `StopRemove` swallow the
NotFound refresh outcome as success, propagate every other refresh error
unchanged, and are idempotent: a second invocation after a successful one
succeeds as well. -/
theorem remove_stopRemove_idempotent (eng : docker.Engine) (c : docker.container)
    (w : docker.World)
    (hStatic : ∀ n m f, eng.listResult n f = eng.listResult m f)
    (hCons : ∀ n i r rest,
      eng.listResult n (docker.Filter.byID i) = Except.ok (r :: rest) → r.ID = i) :
    ((docker.fetchContainerData eng c w).2.2 = some docker.GoError.containerNotFound →
        (docker.container.Remove eng c w).2.2 = none ∧
        (docker.container.StopRemove eng c w).2.2 = none) ∧
    (∀ e, e ≠ docker.GoError.containerNotFound →
        (docker.fetchContainerData eng c w).2.2 = some e →
        (docker.container.Remove eng c w).2.2 = some e ∧
        (docker.container.StopRemove eng c w).2.2 = some e) ∧
    (∀ c1 w1, docker.container.Remove eng c w = (c1, w1, none) →
        (docker.container.Remove eng c1 w1).2.2 = none) ∧
    (∀ c1 w1, docker.container.StopRemove eng c w = (c1, w1, none) →
        (docker.container.StopRemove eng c1 w1).2.2 = none) := by
  refine ⟨?_, ?_, ?_, ?_⟩
  · intro h
    rcases hfd : docker.fetchContainerData eng c w with ⟨c2, w2, e2⟩
    rw [hfd] at h
    simp only at h
    subst h
    constructor
    · unfold docker.container.Remove docker.container.fetchData
      rw [hfd]
    · unfold docker.container.StopRemove docker.container.fetchData
      rw [hfd]
  · intro e hne h
    rcases hfd : docker.fetchContainerData eng c w with ⟨c2, w2, e2⟩
    rw [hfd] at h
    simp only at h
    subst h
    unfold docker.container.Remove docker.container.StopRemove docker.container.fetchData
    rw [hfd]
    cases e with
    | containerNotFound => exact absurd rfl hne
    | emptyContainerNameAndID => exact ⟨rfl, rfl⟩
    | emptyImageName => exact ⟨rfl, rfl⟩
    | containerStartTimeout => exact ⟨rfl, rfl⟩
    | incorrectPortConfig => exact ⟨rfl, rfl⟩
    | transport m => exact ⟨rfl, rfl⟩
  · intro c1 w1 h
    rcases hfd : docker.fetchContainerData eng c w with ⟨c2, w2, e2⟩
    unfold docker.container.Remove docker.container.fetchData at h
    rw [hfd] at h
    cases e2 with
    | none =>
      simp only [docker.RemoveContainer, docker.stopContainer, Prod.mk.injEq] at h
      obtain ⟨hc, hw, hres⟩ := h
      rw [← hc]
      obtain ⟨f, hfc, hfc1, hre⟩ :=
        docker.refetch_stable eng hStatic hCons c c2 w w2 hfd
      unfold docker.container.Remove docker.container.fetchData
      rw [hre w1]
      exact hres
    | some e2v =>
      cases e2v with
      | containerNotFound =>
        simp only [Prod.mk.injEq] at h
        obtain ⟨hc, hw, -⟩ := h
        have hcc : c2 = c :=
          docker.fetch_err_frame eng c w c2 w2 docker.GoError.containerNotFound hfd
        rw [← hc, hcc]
        have hnf : (docker.fetchContainerData eng c w).2.2 =
            some docker.GoError.containerNotFound := by rw [hfd]
        have h2 := docker.fetch_notFound_stable eng hStatic c w hnf w1
        unfold docker.container.Remove docker.container.fetchData
        rcases hfd2 : docker.fetchContainerData eng c w1 with ⟨c3, w3, e3⟩
        rw [hfd2] at h2
        simp only at h2
        subst h2
        rfl
      | emptyContainerNameAndID =>
        simp only [Prod.mk.injEq] at h
        exact absurd h.2.2 (by simp)
      | emptyImageName =>
        simp only [Prod.mk.injEq] at h
        exact absurd h.2.2 (by simp)
      | containerStartTimeout =>
        simp only [Prod.mk.injEq] at h
        exact absurd h.2.2 (by simp)
      | incorrectPortConfig =>
        simp only [Prod.mk.injEq] at h
        exact absurd h.2.2 (by simp)
      | transport m =>
        simp only [Prod.mk.injEq] at h
        exact absurd h.2.2 (by simp)
  · intro c1 w1 h
    rcases hfd : docker.fetchContainerData eng c w with ⟨c2, w2, e2⟩
    unfold docker.container.StopRemove docker.container.fetchData at h
    rw [hfd] at h
    cases e2 with
    | none =>
      rcases hs : eng.stopResult c2.id with _ | es
      · simp only [docker.StopRemoveContainer, docker.stopRemoveContainer, docker.stopContainer,
          docker.removeContainer, hs, Prod.mk.injEq] at h
        obtain ⟨hc, hw, hres⟩ := h
        rw [← hc]
        obtain ⟨f, hfc, hfc1, hre⟩ :=
          docker.refetch_stable eng hStatic hCons c c2 w w2 hfd
        unfold docker.container.StopRemove docker.container.fetchData
        rw [hre w1]
        simp only [docker.StopRemoveContainer, docker.stopRemoveContainer, docker.stopContainer,
          docker.removeContainer, hs]
        exact hres
      · simp only [docker.StopRemoveContainer, docker.stopRemoveContainer, docker.stopContainer,
          docker.removeContainer, hs, Prod.mk.injEq] at h
        exact absurd h.2.2 (by simp)
    | some e2v =>
      cases e2v with
      | containerNotFound =>
        simp only [Prod.mk.injEq] at h
        obtain ⟨hc, hw, -⟩ := h
        have hcc : c2 = c :=
          docker.fetch_err_frame eng c w c2 w2 docker.GoError.containerNotFound hfd
        rw [← hc, hcc]
        have hnf : (docker.fetchContainerData eng c w).2.2 =
            some docker.GoError.containerNotFound := by rw [hfd]
        have h2 := docker.fetch_notFound_stable eng hStatic c w hnf w1
        unfold docker.container.StopRemove docker.container.fetchData
        rcases hfd2 : docker.fetchContainerData eng c w1 with ⟨c3, w3, e3⟩
        rw [hfd2] at h2
        simp only at h2
        subst h2
        rfl
      | emptyContainerNameAndID =>
        simp only [Prod.mk.injEq] at h
        exact absurd h.2.2 (by simp)
      | emptyImageName =>
        simp only [Prod.mk.injEq] at h
        exact absurd h.2.2 (by simp)
      | containerStartTimeout =>
        simp only [Prod.mk.injEq] at h
        exact absurd h.2.2 (by simp)
      | incorrectPortConfig =>
        simp only [Prod.mk.injEq] at h
        exact absurd h.2.2 (by simp)
      | transport m =>
        simp only [Prod.mk.injEq] at h
        exact absurd h.2.2 (by simp)

namespace docker

theorem countList_listCall (f : Filter) : countList [Event.listCall f] = 1 := rfl

theorem countStart_listCall (f : Filter) : countStart [Event.listCall f] = 0 := rfl

theorem countStop_listCall (f : Filter) : countStop [Event.listCall f] = 0 := rfl

theorem countRemove_listCall (f : Filter) : countRemove [Event.listCall f] = 0 := rfl

theorem countSleep_listCall (f : Filter) : countSleep [Event.listCall f] = 0 := rfl

theorem countList_sleep1 : countList [Event.sleepCall 1] = 0 := rfl

theorem countStart_sleep1 : countStart [Event.sleepCall 1] = 0 := rfl

theorem countStop_sleep1 : countStop [Event.sleepCall 1] = 0 := rfl

theorem countRemove_sleep1 : countRemove [Event.sleepCall 1] = 0 := rfl

theorem countSleep_sleep1 : countSleep [Event.sleepCall 1] = 1 := rfl

theorem countList_startCall (i : String) : countList [Event.startCall i] = 0 := rfl

theorem countStart_startCall (i : String) : countStart [Event.startCall i] = 1 := rfl

theorem countStop_startCall (i : String) : countStop [Event.startCall i] = 0 := rfl

theorem countRemove_startCall (i : String) : countRemove [Event.startCall i] = 0 := rfl

theorem countSleep_startCall (i : String) : countSleep [Event.startCall i] = 0 := rfl

/-- `HasStarted` succeeds exactly when its underlying fetch succeeds, with
the same container and trace. -/
theorem hasStarted_none_fetch (eng : Engine) (c : container) (w : World)
    (c1 : container) (w1 : World) (b : Bool)
    (h : container.HasStarted eng c w = (c1, w1, b, none)) :
    fetchContainerData eng c w = (c1, w1, none) := by
  rcases hfd : fetchContainerData eng c w with ⟨c2, w2, e2⟩
  unfold container.HasStarted container.fetchData at h
  rw [hfd] at h
  cases e2 with
  | some e3 =>
    simp only [Prod.mk.injEq] at h
    exact absurd h.2.2.2 (by simp)
  | none =>
    simp only [Prod.mk.injEq] at h
    rw [h.1, h.2.1]

/-- If every reply of the engine from trace position `B` onward is
non-ready, the polling loop runs out its entire fuel, sleeping once per
iteration, issuing no start/stop/remove call and at most one list call per
iteration, and reports not-started. -/
theorem startLoop_all_false (eng : Engine) (B : Nat)
    (hFalse : ∀ n f, B ≤ n → responseStarted (eng.listResult n f) = false) :
    ∀ fuel c w, B ≤ countList w →
      ∃ c2 w2, startLoop eng fuel c w = (c2, w2, false) ∧
        countStart w2 = countStart w ∧
        countStop w2 = countStop w ∧
        countRemove w2 = countRemove w ∧
        countSleep w2 = countSleep w + fuel ∧
        countList w2 ≤ countList w + fuel ∧
        countList w ≤ countList w2 := by
  intro fuel
  induction fuel with
  | zero =>
    intro c w hB
    exact ⟨c, w, rfl, rfl, rfl, rfl, by omega, by omega, Nat.le_refl _⟩
  | succ r ih =>
    intro c w hB
    rcases hHS : container.HasStarted eng c w with ⟨c1, w1, b, e⟩
    have hb : b = false := by
      have hbb := hasStarted_bool eng c w
      rw [hHS] at hbb
      cases hf : fetchFilter c with
      | none => rw [hf] at hbb; exact hbb
      | some f =>
        rw [hf] at hbb
        have hbb2 : b = responseStarted (eng.listResult (countList w) f) := hbb
        rw [hbb2]
        exact hFalse (countList w) f hB
    subst hb
    have hcounts := hasStarted_counts eng c w
    rw [hHS] at hcounts
    obtain ⟨hst0, hsl0, hsp0, hrm0, hll0, hlu0⟩ := hcounts
    have hst : countStart w1 = countStart w := hst0
    have hsl : countSleep w1 = countSleep w := hsl0
    have hsp : countStop w1 = countStop w := hsp0
    have hrm : countRemove w1 = countRemove w := hrm0
    have hll : countList w ≤ countList w1 := hll0
    have hlu : countList w1 ≤ countList w + 1 := hlu0
    have hz1 : countList [Event.sleepCall 1] = 0 := rfl
    have hz2 : countStart [Event.sleepCall 1] = 0 := rfl
    have hz3 : countStop [Event.sleepCall 1] = 0 := rfl
    have hz4 : countRemove [Event.sleepCall 1] = 0 := rfl
    have hz5 : countSleep [Event.sleepCall 1] = 1 := rfl
    have hB1 : B ≤ countList (w1 ++ [Event.sleepCall 1]) := by
      rw [countList_append, hz1]
      omega
    obtain ⟨c2, w2, hloop, a1, a2, a3, a4, a5, a6⟩ := ih c1 (w1 ++ [Event.sleepCall 1]) hB1
    rw [countList_append, hz1] at a5 a6
    rw [countStart_append, hz2] at a1
    rw [countStop_append, hz3] at a2
    rw [countRemove_append, hz4] at a3
    rw [countSleep_append, hz5] at a4
    refine ⟨c2, w2, ?_, by omega, by omega, by omega, by omega, by omega, by omega⟩
    simp only [startLoop, hHS]
    exact hloop

/-- If the engine first reports ready at the `k`-th in-loop poll of a
named container (earlier polls non-ready), the polling loop stops right
there: `k` sleeps, `k + 1` list calls, and a positive verdict. -/
theorem startLoop_first_true (eng : Engine) (N : String) (hN : ¬ N = "") :
    ∀ k fuel (c : container) (w : World), c.options.Name = N → k < fuel →
      (∀ j, j < k → responseStarted
        (eng.listResult (countList w + j) (Filter.byName ("/" ++ N))) = false) →
      responseStarted
        (eng.listResult (countList w + k) (Filter.byName ("/" ++ N))) = true →
      ∃ c2 w2, startLoop eng fuel c w = (c2, w2, true) ∧
        countStart w2 = countStart w ∧
        countStop w2 = countStop w ∧
        countRemove w2 = countRemove w ∧
        countSleep w2 = countSleep w + k ∧
        countList w2 = countList w + k + 1 := by
  intro k
  induction k with
  | zero =>
    intro fuel c w hname hk hbefore htrue
    cases fuel with
    | zero => omega
    | succ r =>
      have hf : fetchFilter c = some (Filter.byName ("/" ++ N)) := by
        rw [fetchFilter]
        simp [getName, hname, hN]
      rcases hHS : container.HasStarted eng c w with ⟨c1, w1, b, e⟩
      have hb : b = true := by
        have hbb := hasStarted_bool eng c w
        rw [hHS, hf] at hbb
        have hbb2 : b = responseStarted
          (eng.listResult (countList w) (Filter.byName ("/" ++ N))) := hbb
        rw [hbb2]
        simpa using htrue
      subst hb
      have hw1 : w1 = w ++ [Event.listCall (Filter.byName ("/" ++ N))] := by
        have hx := hasStarted_world eng c w _ hf
        rw [hHS] at hx
        exact hx
      subst hw1
      refine ⟨c1, w ++ [Event.listCall (Filter.byName ("/" ++ N))],
        ?_, ?_, ?_, ?_, ?_, ?_⟩
      · simp only [startLoop, hHS]
      · rw [countStart_append, countStart_listCall]
        omega
      · rw [countStop_append, countStop_listCall]
        omega
      · rw [countRemove_append, countRemove_listCall]
        omega
      · rw [countSleep_append, countSleep_listCall]
      · rw [countList_append, countList_listCall]
  | succ kk ih =>
    intro fuel c w hname hk hbefore htrue
    cases fuel with
    | zero => omega
    | succ r =>
      have hf : fetchFilter c = some (Filter.byName ("/" ++ N)) := by
        rw [fetchFilter]
        simp [getName, hname, hN]
      rcases hHS : container.HasStarted eng c w with ⟨c1, w1, b, e⟩
      have hb : b = false := by
        have hbb := hasStarted_bool eng c w
        rw [hHS, hf] at hbb
        have hbb2 : b = responseStarted
          (eng.listResult (countList w) (Filter.byName ("/" ++ N))) := hbb
        rw [hbb2]
        simpa using hbefore 0 (Nat.succ_pos kk)
      subst hb
      have hw1 : w1 = w ++ [Event.listCall (Filter.byName ("/" ++ N))] := by
        have hx := hasStarted_world eng c w _ hf
        rw [hHS] at hx
        exact hx
      have hopts : c1.options = c.options := by
        have hx := hasStarted_options eng c w
        rw [hHS] at hx
        exact hx
      have hname1 : c1.options.Name = N := by rw [hopts]; exact hname
      have hcl : countList (w1 ++ [Event.sleepCall 1]) = countList w + 1 := by
        subst hw1
        rw [countList_append, countList_append, countList_listCall, countList_sleep1]
      have hbefore1 : ∀ j, j < kk → responseStarted
          (eng.listResult (countList (w1 ++ [Event.sleepCall 1]) + j)
            (Filter.byName ("/" ++ N))) = false := by
        intro j hj
        rw [hcl, show countList w + 1 + j = countList w + (j + 1) from by omega]
        exact hbefore (j + 1) (by omega)
      have htrue1 : responseStarted
          (eng.listResult (countList (w1 ++ [Event.sleepCall 1]) + kk)
            (Filter.byName ("/" ++ N))) = true := by
        rw [hcl, show countList w + 1 + kk = countList w + (kk + 1) from by omega]
        exact htrue
      obtain ⟨c2, w2, hloop, b1, b2, b3, b4, b5⟩ :=
        ih r c1 (w1 ++ [Event.sleepCall 1]) hname1 (by omega) hbefore1 htrue1
      subst hw1
      rw [countStart_append, countStart_append, countStart_listCall, countStart_sleep1] at b1
      rw [countStop_append, countStop_append, countStop_listCall, countStop_sleep1] at b2
      rw [countRemove_append, countRemove_append, countRemove_listCall,
        countRemove_sleep1] at b3
      rw [countSleep_append, countSleep_append, countSleep_listCall, countSleep_sleep1] at b4
      rw [hcl] at b5
      refine ⟨c2, w2, ?_, by omega, by omega, by omega, by omega, by omega⟩
      simp only [startLoop, hHS]
      exact hloop

end docker

/-- C5: when the container is not yet started (initial probe false, start
command accepted), `Start` issues the start command exactly once; if the
readiness verdict never becomes true, the loop runs exactly
StartTimeout-many polls, sleeping one second after each, and returns the
timeout error; if the verdict first becomes true at in-loop poll `k`
(within budget), `Start` succeeds immediately after that poll — `k`
sleeps, `k + 2` list calls in total, and no further waiting. -/
theorem start_polling_budget (eng : docker.Engine) (c : docker.container) (w : docker.World)
    (c1 : docker.container) (w1 : docker.World)
    (hInit : docker.container.HasStarted eng c w = (c1, w1, false, none))
    (hCmd : eng.startResult c1.id = none) :
    ((∀ n f, docker.responseStarted (eng.listResult n f) = false) →
      ∃ c2 w2, docker.container.Start eng c w =
          (c2, w2, some docker.GoError.containerStartTimeout) ∧
        docker.countStart w2 = docker.countStart w + 1 ∧
        docker.countSleep w2 = docker.countSleep w + c1.options.StartTimeout.toNat ∧
        docker.countList w2 ≤ docker.countList w + 1 + c1.options.StartTimeout.toNat) ∧
    (∀ k : Nat, docker.getName c ≠ "" → (k : Int) < c1.options.StartTimeout →
      (∀ j, j < k → docker.responseStarted
        (eng.listResult (docker.countList w + 1 + j)
          (docker.Filter.byName ("/" ++ docker.getName c))) = false) →
      docker.responseStarted
        (eng.listResult (docker.countList w + 1 + k)
          (docker.Filter.byName ("/" ++ docker.getName c))) = true →
      ∃ c2 w2, docker.container.Start eng c w = (c2, w2, none) ∧
        docker.countStart w2 = docker.countStart w + 1 ∧
        docker.countSleep w2 = docker.countSleep w + k ∧
        docker.countList w2 = docker.countList w + 2 + k) := by
  have hfetch := docker.hasStarted_none_fetch eng c w c1 w1 false hInit
  obtain ⟨f, r, rest, hff, hlr, hc1, hw1⟩ := docker.fetch_ok_shape eng c w c1 w1 hfetch
  subst hw1
  constructor
  · intro hNever
    obtain ⟨c2, w2, hloop, a1, a2, a3, a4, a5, a6⟩ :=
      docker.startLoop_all_false eng 0 (fun n f2 _ => hNever n f2)
        c1.options.StartTimeout.toNat c1
        ((w ++ [docker.Event.listCall f]) ++ [docker.Event.startCall c1.id]) (Nat.zero_le _)
    rw [docker.countStart_append, docker.countStart_append, docker.countStart_listCall,
      docker.countStart_startCall] at a1
    rw [docker.countSleep_append, docker.countSleep_append, docker.countSleep_listCall,
      docker.countSleep_startCall] at a4
    rw [docker.countList_append, docker.countList_append, docker.countList_listCall,
      docker.countList_startCall] at a5
    refine ⟨c2, w2, ?_, by omega, by omega, by omega⟩
    unfold docker.container.Start
    rw [hInit]
    simp only [docker.StartContainer, docker.startContainer, hCmd]
    rw [hloop]
    rfl
  · intro k hName hkT hbefore htrue
    have hfname : docker.fetchFilter c =
        some (docker.Filter.byName ("/" ++ docker.getName c)) := by
      rw [docker.fetchFilter]
      simp [hName]
    have hfeq : f = docker.Filter.byName ("/" ++ docker.getName c) := by
      rw [hff] at hfname
      injection hfname
    have hnameopt : c1.options.Name = docker.getName c := by
      rw [hc1]
      rfl
    have hcl : docker.countList
        ((w ++ [docker.Event.listCall f]) ++ [docker.Event.startCall c1.id]) =
        docker.countList w + 1 := by
      rw [docker.countList_append, docker.countList_append, docker.countList_listCall,
        docker.countList_startCall]
    obtain ⟨c2, w2, hloop, b1, b2, b3, b4, b5⟩ :=
      docker.startLoop_first_true eng (docker.getName c) hName k
        c1.options.StartTimeout.toNat c1
        ((w ++ [docker.Event.listCall f]) ++ [docker.Event.startCall c1.id])
        hnameopt (by omega)
        (by intro j hj; rw [hcl]; exact hbefore j hj)
        (by rw [hcl]; exact htrue)
    rw [docker.countStart_append, docker.countStart_append, docker.countStart_listCall,
      docker.countStart_startCall] at b1
    rw [docker.countSleep_append, docker.countSleep_append, docker.countSleep_listCall,
      docker.countSleep_startCall] at b4
    rw [hcl] at b5
    refine ⟨c2, w2, ?_, by omega, by omega, by omega⟩
    unfold docker.container.Start
    rw [hInit]
    simp only [docker.StartContainer, docker.startContainer, hCmd]
    rw [hloop]
    rfl

/-- Engine that forever lists the container in the `created` state: the
readiness predicate never becomes true. -/
def engCreated : docker.Engine :=
  { listResult := fun _ _ => Except.ok [{ ID := "abc", State := "created", Status := "Created" }]
    startResult := fun _ => none
    stopResult := fun _ => none
    removeResult := fun _ => none }

/-- A named container with a two-second start budget. -/
def cShortTimeout : docker.container := { options := { Name := "c", StartTimeout := 2 } }

/-- Witness for C5: on the never-ready engine with StartTimeout 2, `Start`
times out after exactly one start command, two polls and two sleeps. -/
theorem start_polling_budget_witness :
    ∃ c2 w2, docker.container.Start engCreated cShortTimeout [] =
        (c2, w2, some docker.GoError.containerStartTimeout) ∧
      docker.countStart w2 = 1 ∧ docker.countSleep w2 = 2 ∧ docker.countList w2 ≤ 3 := by
  have h := (start_polling_budget engCreated cShortTimeout []
      ({ cShortTimeout with id := "abc", state := "created", status := "Created" })
      [docker.Event.listCall (docker.Filter.byName "/c")] (by rfl) (by rfl)).1
      (fun n f => rfl)
  simpa using h

/-- Engine whose first list reply shows a created container and whose
every later list reply is a transport error. -/
def engErrAfterFirst : docker.Engine :=
  { listResult := fun n _ =>
      match n with
      | 0 => Except.ok [{ ID := "abc", State := "created", Status := "Created" }]
      | _ + 1 => Except.error (docker.GoError.transport "boom")
    startResult := fun _ => none
    stopResult := fun _ => none
    removeResult := fun _ => none }

/-- C6 counterexample: every in-loop poll — including the final one before
timeout — fails with a transport error, yet `Start` returns the timeout
error and not that transport error: the final poll's answer is NOT
surfaced, contradicting the claim. -/
theorem start_timeout_masks_final_poll_error :
    (docker.container.Start engErrAfterFirst cShortTimeout []).2.2 =
      some docker.GoError.containerStartTimeout ∧
    (docker.container.Start engErrAfterFirst cShortTimeout []).2.2 ≠
      some (docker.GoError.transport "boom") := by
  exact ⟨rfl, by decide⟩

/-- C6 (amended): errors of the readiness probe during the polling loop
are swallowed on every tick, the final one included; when every in-loop
poll fails and the budget runs out, `Start` returns the timeout error
regardless of the probe's last answer. -/
theorem start_poll_errors_always_swallowed (eng : docker.Engine) (c : docker.container)
    (w : docker.World) (c1 : docker.container) (w1 : docker.World)
    (hInit : docker.container.HasStarted eng c w = (c1, w1, false, none))
    (hCmd : eng.startResult c1.id = none)
    (hErr : ∀ n f, docker.countList w + 1 ≤ n →
      ∃ e, eng.listResult n f = Except.error e) :
    ∃ c2 w2, docker.container.Start eng c w =
      (c2, w2, some docker.GoError.containerStartTimeout) := by
  have hfetch := docker.hasStarted_none_fetch eng c w c1 w1 false hInit
  obtain ⟨f, r, rest, hff, hlr, hc1, hw1⟩ := docker.fetch_ok_shape eng c w c1 w1 hfetch
  subst hw1
  have hFalse : ∀ n f2, docker.countList w + 1 ≤ n →
      docker.responseStarted (eng.listResult n f2) = false := by
    intro n f2 hn
    obtain ⟨e, he⟩ := hErr n f2 hn
    simp [docker.responseStarted, he]
  have hbase : docker.countList w + 1 ≤ docker.countList
      ((w ++ [docker.Event.listCall f]) ++ [docker.Event.startCall c1.id]) := by
    rw [docker.countList_append, docker.countList_append, docker.countList_listCall,
      docker.countList_startCall]
  obtain ⟨c2, w2, hloop, -, -, -, -, -, -⟩ :=
    docker.startLoop_all_false eng (docker.countList w + 1) hFalse
      c1.options.StartTimeout.toNat c1
      ((w ++ [docker.Event.listCall f]) ++ [docker.Event.startCall c1.id]) hbase
  refine ⟨c2, w2, ?_⟩
  unfold docker.container.Start
  rw [hInit]
  simp only [docker.StartContainer, docker.startContainer, hCmd]
  rw [hloop]
  rfl

/-- Witness for C6 (amended): on the engine whose polls all error out,
`Start` of the two-second container ends in the timeout error. -/
theorem start_poll_errors_always_swallowed_witness :
    ∃ c2 w2, docker.container.Start engErrAfterFirst cShortTimeout [] =
      (c2, w2, some docker.GoError.containerStartTimeout) := by
  apply start_poll_errors_always_swallowed engErrAfterFirst cShortTimeout []
    ({ cShortTimeout with id := "abc", state := "created", status := "Created" })
    [docker.Event.listCall (docker.Filter.byName "/c")]
    (by rfl) (by rfl)
  intro n f hn
  cases n with
  | zero => omega
  | succ m => exact ⟨docker.GoError.transport "boom", rfl⟩

/-- Witness for C3: with a remote that lists nothing (the resource is
absent), both teardown operations succeed (the NotFound refresh outcome is
swallowed), and calling each one a second time succeeds again. -/
theorem remove_stopRemove_idempotent_witness :
    (docker.container.Remove engEmptyList cNamed []).2.2 = none ∧
    (docker.container.StopRemove engEmptyList cNamed []).2.2 = none := by
  have h := remove_stopRemove_idempotent engEmptyList cNamed []
    (fun _ _ _ => rfl)
    (by intro n i r rest hx; exact absurd hx (by simp [engEmptyList]))
  exact h.1 (by rfl)
